import Mathlib

/-!
Verification of the Giphy GIF Replacer filter (`src/main.py`).

Strings are modelled as `List Char`.  The regex `/gif\s*"([^"]*)"` used by
`Filter._find_gif_commands` is deterministic: after the literal `/gif`, the
greedy `\s*` must stop at a `"` (a non-space character), and the greedy
`[^"]*` must stop at the closing `"`, so no backtracking path differs from
the greedy one.  We embed `re.findall` for this pattern as a left-to-right,
non-overlapping scanner (`find_gif_commands`).

`Filter._get_gif_url` is embedded as `get_gif_url`, a pure function over an
explicit cache (`self.gif_cache`), an oracle for the single Giphy HTTP
request (`ApiResponse`: the parsed JSON `data` array, each entry carrying an
optional `images.fixed_width.url` string, or an exception), and an oracle
index for `random.choice`.  The returned `networkCalled` flag records
whether the HTTP request would have been issued.

`Filter.outlet` is embedded as `outlet`, threading the cache and consuming
one oracle per resolver call.  Python's `str.replace` (all non-overlapping
occurrences, left to right) is `str_replace`; the filter only ever replaces
the nonempty pattern `/gif "query"`, so the empty-pattern case (where
Python would interleave the replacement everywhere) is modelled as the
identity.
-/

namespace GifReplacer

/-- Characters matched by Python's `\s` on `str` patterns
(equivalently `str.isspace`). -/
def isPySpace (c : Char) : Bool :=
  c = ' ' || c = '\t' || c = '\n' || c = '\r' || c = '\x0b' || c = '\x0c' ||
  c = '\x1c' || c = '\x1d' || c = '\x1e' || c = '\x1f' || c = '\x85' ||
  c = '\xa0' || c = '\u1680' || c = '\u2000' || c = '\u2001' || c = '\u2002' ||
  c = '\u2003' || c = '\u2004' || c = '\u2005' || c = '\u2006' || c = '\u2007' ||
  c = '\u2008' || c = '\u2009' || c = '\u200a' || c = '\u2028' || c = '\u2029' ||
  c = '\u202f' || c = '\u205f' || c = '\u3000'

/-- Attempt to match the regex `/gif\s*"([^"]*)"` at the start of `s`.
Returns the captured query and the remainder of the string after the match. -/
def matchCmd : List Char → Option (List Char × List Char)
  | '/' :: 'g' :: 'i' :: 'f' :: rest =>
    match rest.dropWhile isPySpace with
    | '"' :: afterQuote =>
      match afterQuote.dropWhile (fun c => c ≠ '"') with
      | '"' :: afterClose => some (afterQuote.takeWhile (fun c => c ≠ '"'), afterClose)
      | _ => none
    | _ => none
  | _ => none

/-- The shape of a full command occurrence matched by the regex: the literal
`/gif`, then whitespace, then a double-quoted run of non-quote characters. -/
def gifCmdText (ws q : List Char) : List Char :=
  '/' :: 'g' :: 'i' :: 'f' :: (ws ++ '"' :: (q ++ ['"']))

theorem gifCmdText_append (ws q rest : List Char) :
    gifCmdText ws q ++ rest = '/' :: 'g' :: 'i' :: 'f' :: (ws ++ '"' :: (q ++ '"' :: rest)) := by
  simp [gifCmdText]

/-- Soundness of the matcher: a successful match decomposes the input as a
well-formed command followed by the remainder. -/
theorem matchCmd_sound {s q rest : List Char} (h : matchCmd s = some (q, rest)) :
    ∃ ws, s = gifCmdText ws q ++ rest ∧
      ws.all isPySpace = true ∧ q.all (fun c => c ≠ '"') = true := by
  unfold matchCmd at h
  split at h
  case h_2 => exact Option.noConfusion h
  case h_1 t =>
    split at h
    case h_2 => exact Option.noConfusion h
    case h_1 afterQuote heq1 =>
      split at h
      case h_2 => exact Option.noConfusion h
      case h_1 afterClose heq2 =>
        simp only [Option.some.injEq, Prod.mk.injEq] at h
        obtain ⟨hq, hrest⟩ := h
        have haq : afterQuote = q ++ '"' :: rest := by
          rw [← hq, ← hrest, ← heq2]
          exact (List.takeWhile_append_dropWhile _ afterQuote).symm
        have ht : t = t.takeWhile isPySpace ++ ('"' :: (q ++ '"' :: rest)) := by
          calc t = t.takeWhile isPySpace ++ t.dropWhile isPySpace :=
                (List.takeWhile_append_dropWhile isPySpace t).symm
            _ = t.takeWhile isPySpace ++ ('"' :: afterQuote) := by rw [heq1]
            _ = t.takeWhile isPySpace ++ ('"' :: (q ++ '"' :: rest)) := by rw [haq]
        refine ⟨t.takeWhile isPySpace, ?_, List.all_takeWhile, ?_⟩
        · rw [gifCmdText_append]
          simp only [List.cons.injEq, true_and]
          exact ht
        · rw [← hq]; exact List.all_takeWhile

theorem matchCmd_some_length {s q rest : List Char} (h : matchCmd s = some (q, rest)) :
    rest.length < s.length := by
  obtain ⟨ws, hs, -, -⟩ := matchCmd_sound h
  subst hs
  simp [gifCmdText]
  omega

/-- Embedding of `Filter._find_gif_commands`:
`re.findall(r'/gif\s*"([^"]*)"', content)`, scanning left to right and
collecting the captures of non-overlapping matches. -/
def find_gif_commands (s : List Char) : List (List Char) :=
  match s with
  | [] => []
  | c :: s' =>
    match h : matchCmd (c :: s') with
    | some (q, rest) => q :: find_gif_commands rest
    | none => find_gif_commands s'
termination_by s.length
decreasing_by
  · exact matchCmd_some_length h
  · simp

/-- The query cache `self.gif_cache`: a mapping from query strings to lists
of GIF URLs, modelled as an insertion-ordered association list (as a Python
`dict` is). -/
abbrev GifCache := List (List Char × List (List Char))

/-- Python `dict` lookup (`self.gif_cache[query]` / `query in self.gif_cache`). -/
def cacheLookup : GifCache → List Char → Option (List (List Char))
  | [], _ => none
  | (k, v) :: rest, q => if k = q then some v else cacheLookup rest q

/-- Python `dict` assignment `self.gif_cache[query] = gifs`: replace the
value of an existing key in place, else append the new key at the end. -/
def cacheSet : GifCache → List Char → List (List Char) → GifCache
  | [], q, v => [(q, v)]
  | (k, w) :: rest, q, v => if k = q then (q, v) :: rest else (k, w) :: cacheSet rest q v

/-- Admin configuration (`Filter.Valves`).  `MAX_GIF_RESULTS` only shapes the
outbound request's `limit` parameter, which lives inside the `ApiResponse`
oracle; `DEBUG_MODE` and `PRIORITY` do not affect the transformed message. -/
structure Valves where
  GIPHY_API_KEY : List Char
  DEBUG_MODE : Bool
  PRIORITY : Int
  MAX_GIF_RESULTS : Nat

/-- Per-user configuration (`Filter.UserValves`). -/
structure UserValves where
  ENABLE_GIF_REPLACE : Bool
  RANDOM_GIF : Bool

/-- The filter's configuration state (`self.valves`, `self.user_valves`). -/
structure Config where
  valves : Valves
  user_valves : UserValves

/-- Oracle for one Giphy search request: either the request or JSON parsing
raises (`failure`, caught by the `except` clause), or it yields the parsed
`data` array (`success`), each entry carrying the optional
`images.fixed_width.url` string (`none` when any of the nested keys is
missing; an entry may also carry the empty string, which Python treats as
falsy).  A missing or empty `data` field is `success []`. -/
inductive ApiResponse where
  | failure (detail : List Char)
  | success (entries : List (Option (List Char)))

/-- Result of one `_get_gif_url` call: the returned string, the cache after
the call, and whether the HTTP request was issued. -/
structure ResolveOut where
  url : List Char
  cache : GifCache
  networkCalled : Bool

/-- The f-string `f"Error: Giphy API key missing for query: {query}"`. -/
def keyMissingMsg (q : List Char) : List Char :=
  "Error: Giphy API key missing for query: ".toList ++ q

/-- The f-string `f"No GIF found for: {query}"`. -/
def noGifMsg (q : List Char) : List Char := "No GIF found for: ".toList ++ q

/-- The f-string `f"GIF search error: {e}"`. -/
def searchErrMsg (e : List Char) : List Char := "GIF search error: ".toList ++ e

/-- The list comprehension building `gifs`: keep each entry's
`images.fixed_width.url` when present and truthy (nonempty). -/
def fixedWidthUrls (entries : List (Option (List Char))) : List (List Char) :=
  entries.filterMap fun e =>
    match e with
    | none => none
    | some u => if u = [] then none else some u

/-- The selection step of `_get_gif_url` (lines 137-147): empty candidate
list check, then random choice (`random.choice(gifs)`, modelled by the
oracle index `r`) or sequential rotation
(`self.gif_cache[query] = gifs[1:] + [gif_url]`). -/
def selectGif (cfg : Config) (query : List Char) (gifs : List (List Char))
    (cache : GifCache) (called : Bool) (r : Nat) : ResolveOut :=
  match gifs with
  | [] => ⟨noGifMsg query, cache, called⟩
  | g :: gs =>
    if cfg.user_valves.RANDOM_GIF then
      ⟨(g :: gs).getD (r % (gs.length + 1)) g, cache, called⟩
    else
      ⟨g, cacheSet cache query (gs ++ [g]), called⟩

/-- Embedding of `Filter._get_gif_url`.  `api` is what the Giphy request
would produce if issued; `r` is the `random.choice` oracle. -/
def get_gif_url (cfg : Config) (cache : GifCache) (query : List Char)
    (api : ApiResponse) (r : Nat) : ResolveOut :=
  if cfg.valves.GIPHY_API_KEY = [] then
    ⟨keyMissingMsg query, cache, false⟩
  else
    match cacheLookup cache query with
    | some gifs => selectGif cfg query gifs cache false r
    | none =>
      match api with
      | ApiResponse.failure e => ⟨searchErrMsg e, cache, true⟩
      | ApiResponse.success entries =>
        match entries with
        | [] => ⟨noGifMsg query, cache, true⟩
        | _ :: _ =>
          selectGif cfg query (fixedWidthUrls entries)
            (cacheSet cache query (fixedWidthUrls entries)) true r

/-- The f-string `f'/gif "{query}"'` used as the replacement pattern. -/
def cmdText (q : List Char) : List Char := "/gif \"".toList ++ q ++ ['"']

/-- The f-string `f"![GIF]({gif_url})"` substituted into the message. -/
def gifMarkup (u : List Char) : List Char := "![GIF](".toList ++ u ++ [')']

/-- Python `str.replace` for a nonempty pattern `o :: os`: replace all
non-overlapping occurrences, scanning left to right. -/
def replaceAllNE (o : Char) (os new : List Char) : List Char → List Char
  | [] => []
  | c :: s =>
    if (o :: os).isPrefixOf (c :: s) then
      new ++ replaceAllNE o os new ((c :: s).drop (os.length + 1))
    else
      c :: replaceAllNE o os new s
termination_by l => l.length
decreasing_by
  · simp only [List.length_drop, List.length_cons]
    omega
  · simp

/-- Python `content.replace(old, new)`.  The filter only calls this with the
nonempty pattern `/gif "query"`, so the empty-pattern case is modelled as
the identity. -/
def str_replace (s old new : List Char) : List Char :=
  match old with
  | [] => s
  | o :: os => replaceAllNE o os new s

/-- Whether `pat` occurs as a contiguous substring of the second argument. -/
def containsSub (pat : List Char) : List Char → Bool
  | [] => pat.isEmpty
  | c :: s => pat.isPrefixOf (c :: s) || containsSub pat s

/-- State threaded through the `for query in gif_commands` loop of `outlet`:
the text being rewritten, the cache, and the remaining oracles. -/
structure LoopOut where
  text : List Char
  cache : GifCache
  apis : List ApiResponse
  rands : List Nat

/-- The replacement loop of `outlet` (lines 195-197 and 208-210): for each
extracted query, resolve a URL and replace all occurrences of the
reconstructed command with the image markup. -/
def replaceLoop (cfg : Config) : List (List Char) → List Char → GifCache →
    List ApiResponse → List Nat → LoopOut
  | [], content, cache, apis, rands => ⟨content, cache, apis, rands⟩
  | query :: qs, content, cache, apis, rands =>
    let out := get_gif_url cfg cache query (apis.headD (ApiResponse.failure [])) (rands.headD 0)
    replaceLoop cfg qs (str_replace content (cmdText query) (gifMarkup out.url))
      out.cache apis.tail rands.tail

/-- One element of a list-valued message content: its `type` field, its
`text` field, and the remaining fields (untouched by the filter). -/
structure Part where
  ptype : List Char
  ptext : List Char
  extra : List (List Char × List Char)

/-- A message's `content` value: a string, a list of typed parts, or
anything else (in which case `outlet` leaves the message alone). -/
inductive Content where
  | str (s : List Char)
  | parts (ps : List Part)
  | other

/-- A chat message (only its `content` field matters to the filter). -/
structure Message where
  content : Content

/-- The body passed to the hooks (only its `messages` field matters). -/
structure Body where
  messages : List Message

/-- The list-content branch of `outlet` (lines 202-212): rewrite the `text`
field of each part whose `type` is `"text"`, leave other parts untouched. -/
def partsLoop (cfg : Config) : List Part → GifCache → List ApiResponse → List Nat →
    List Part × GifCache × List ApiResponse × List Nat
  | [], cache, apis, rands => ([], cache, apis, rands)
  | p :: ps, cache, apis, rands =>
    if p.ptype = "text".toList then
      let out := replaceLoop cfg (find_gif_commands p.ptext) p.ptext cache apis rands
      let restOut := partsLoop cfg ps out.cache out.apis out.rands
      (⟨p.ptype, out.text, p.extra⟩ :: restOut.1, restOut.2)
    else
      let restOut := partsLoop cfg ps cache apis rands
      (p :: restOut.1, restOut.2)

/-- Result of `outlet`: the returned body and the cache afterwards. -/
structure OutletOut where
  body : Body
  cache : GifCache

/-- Embedding of `Filter.outlet`: process the last message's content,
replacing extracted commands by image markup.  The debug status event (lines
214-224) does not affect the body and is not modelled. -/
def outlet (cfg : Config) (cache : GifCache) (body : Body)
    (apis : List ApiResponse) (rands : List Nat) : OutletOut :=
  if cfg.user_valves.ENABLE_GIF_REPLACE = false then ⟨body, cache⟩
  else
    match body.messages.getLast? with
    | none => ⟨body, cache⟩
    | some m =>
      match m.content with
      | Content.str s =>
        let out := replaceLoop cfg (find_gif_commands s) s cache apis rands
        ⟨⟨body.messages.dropLast ++ [⟨Content.str out.text⟩]⟩, out.cache⟩
      | Content.parts ps =>
        let out := partsLoop cfg ps cache apis rands
        ⟨⟨body.messages.dropLast ++ [⟨Content.parts out.1⟩]⟩, out.2.1⟩
      | Content.other => ⟨body, cache⟩

/-- Some occurrence of a well-formed `/gif` command appears in `s`. -/
def containsGifCmd (s : List Char) : Prop :=
  ∃ a ws q b, s = a ++ (gifCmdText ws q ++ b) ∧
    ws.all isPySpace = true ∧ q.all (fun c => c ≠ '"') = true

/-- A well-formed `/gif` command starts at position 0 of `s`. -/
def startsWithGifCmd (s : List Char) : Prop :=
  ∃ ws q rest, s = gifCmdText ws q ++ rest ∧
    ws.all isPySpace = true ∧ q.all (fun c => c ≠ '"') = true

/-! Helper lemmas about list scanning, the matcher, the scanner, the cache,
and string replacement. -/

theorem dropWhile_append_all {p : Char → Bool} {l1 : List Char} (l2 : List Char)
    (h : l1.all p = true) : (l1 ++ l2).dropWhile p = l2.dropWhile p := by
  induction l1 with
  | nil => rfl
  | cons c cs ih =>
    simp only [List.all_cons, Bool.and_eq_true] at h
    simp [List.dropWhile_cons, h.1, ih h.2]

theorem takeWhile_append_all {p : Char → Bool} {l1 : List Char} (l2 : List Char)
    (h : l1.all p = true) : (l1 ++ l2).takeWhile p = l1 ++ l2.takeWhile p := by
  induction l1 with
  | nil => rfl
  | cons c cs ih =>
    simp only [List.all_cons, Bool.and_eq_true] at h
    simp [List.takeWhile_cons, h.1, ih h.2]

/-- Completeness of the matcher: at the start of a well-formed command, the
match succeeds, captures exactly the quoted query, and consumes exactly the
command text. -/
theorem matchCmd_complete (ws q rest : List Char)
    (hws : ws.all isPySpace = true) (hq : q.all (fun c => c ≠ '"') = true) :
    matchCmd (gifCmdText ws q ++ rest) = some (q, rest) := by
  have hdw1 : (ws ++ '"' :: (q ++ '"' :: rest)).dropWhile isPySpace
      = '"' :: (q ++ '"' :: rest) := by
    rw [dropWhile_append_all _ hws]
    simp [List.dropWhile_cons, isPySpace]
  have hdw2 : (q ++ '"' :: rest).dropWhile (fun c => c ≠ '"') = '"' :: rest := by
    rw [dropWhile_append_all _ hq]
    simp [List.dropWhile_cons]
  have htw : (q ++ '"' :: rest).takeWhile (fun c => c ≠ '"') = q := by
    rw [takeWhile_append_all _ hq]
    simp [List.takeWhile_cons]
  rw [gifCmdText_append]
  simp only [matchCmd, hdw1, hdw2, htw]

theorem find_gif_commands_nil : find_gif_commands [] = [] := by
  rw [find_gif_commands]

theorem find_gif_commands_cons_some {c : Char} {s q rest : List Char}
    (h : matchCmd (c :: s) = some (q, rest)) :
    find_gif_commands (c :: s) = q :: find_gif_commands rest := by
  rw [find_gif_commands]
  split <;> simp_all

theorem find_gif_commands_cons_none {c : Char} {s : List Char}
    (h : matchCmd (c :: s) = none) :
    find_gif_commands (c :: s) = find_gif_commands s := by
  rw [find_gif_commands]
  split <;> simp_all

/-- Unconditional unfolding equation for the scanner on a nonempty string,
convenient for evaluating concrete inputs by rewriting. -/
theorem find_gif_commands_cons (c : Char) (s : List Char) :
    find_gif_commands (c :: s) =
      match matchCmd (c :: s) with
      | some (q, rest) => q :: find_gif_commands rest
      | none => find_gif_commands s := by
  cases hm : matchCmd (c :: s) with
  | some qr =>
    obtain ⟨q, rest⟩ := qr
    rw [find_gif_commands_cons_some hm]
  | none => rw [find_gif_commands_cons_none hm]

theorem find_gif_commands_gifCmd (ws q rest : List Char)
    (hws : ws.all isPySpace = true) (hq : q.all (fun c => c ≠ '"') = true) :
    find_gif_commands (gifCmdText ws q ++ rest) = q :: find_gif_commands rest := by
  have hm := matchCmd_complete ws q rest hws hq
  rw [gifCmdText_append] at hm ⊢
  rw [find_gif_commands_cons_some hm]

theorem find_ne_nil_of_contains {s : List Char} (h : containsGifCmd s) :
    find_gif_commands s ≠ [] := by
  obtain ⟨a, ws, q, b, hs, hws, hq⟩ := h
  subst hs
  induction a with
  | nil =>
    rw [List.nil_append, find_gif_commands_gifCmd ws q b hws hq]
    simp
  | cons c a' ih =>
    rw [List.cons_append, find_gif_commands_cons]
    cases hm : matchCmd (c :: (a' ++ (gifCmdText ws q ++ b))) with
    | some qr => simp
    | none => simpa using ih

theorem contains_of_find_ne_nil {s : List Char} (h : find_gif_commands s ≠ []) :
    containsGifCmd s := by
  induction s using find_gif_commands.induct with
  | case1 => rw [find_gif_commands_nil] at h; exact absurd rfl h
  | case2 c s' q rest hm ih =>
    obtain ⟨ws, hs, hws, hq⟩ := matchCmd_sound hm
    exact ⟨[], ws, q, rest, by simpa using hs, hws, hq⟩
  | case3 c s' hm ih =>
    rw [find_gif_commands_cons_none hm] at h
    obtain ⟨a, ws, q, b, hs, hws, hq⟩ := ih h
    exact ⟨c :: a, ws, q, b, by rw [List.cons_append, hs], hws, hq⟩

theorem cacheLookup_cacheSet_self (c : GifCache) (q : List Char) (v : List (List Char)) :
    cacheLookup (cacheSet c q v) q = some v := by
  induction c with
  | nil => simp [cacheSet, cacheLookup]
  | cons kv rest ih =>
    obtain ⟨k, w⟩ := kv
    by_cases h : k = q
    · simp [cacheSet, cacheLookup, h]
    · simp [cacheSet, cacheLookup, h, ih]

theorem cacheLookup_cacheSet_ne (c : GifCache) {q q' : List Char} (v : List (List Char))
    (h : q ≠ q') : cacheLookup (cacheSet c q v) q' = cacheLookup c q' := by
  induction c with
  | nil => simp [cacheSet, cacheLookup, h]
  | cons kv rest ih =>
    obtain ⟨k, w⟩ := kv
    by_cases hk : k = q
    · subst hk; simp [cacheSet, cacheLookup, h]
    · simp [cacheSet, cacheLookup, hk, ih]

theorem selectGif_networkCalled (cfg : Config) (query : List Char)
    (gifs : List (List Char)) (cache : GifCache) (called : Bool) (r : Nat) :
    (selectGif cfg query gifs cache called r).networkCalled = called := by
  cases gifs with
  | nil => rfl
  | cons g gs =>
    by_cases hr : cfg.user_valves.RANDOM_GIF <;> simp [selectGif, hr]

theorem getD_mem_of_mem {α : Type} (l : List α) (i : Nat) (d : α) (hd : d ∈ l) :
    l.getD i d ∈ l := by
  rcases Nat.lt_or_ge i l.length with h | h
  · rw [List.getD_eq_getElem l d h]
    exact List.getElem_mem h
  · rw [List.getD_eq_default l d h]
    exact hd

theorem isPrefixOf_append (l t : List Char) : l.isPrefixOf (l ++ t) = true := by
  induction l with
  | nil => simp [List.isPrefixOf]
  | cons c cs ih => simp [List.isPrefixOf, ih]

theorem replaceAllNE_nil (o : Char) (os new : List Char) :
    replaceAllNE o os new [] = [] := by
  rw [replaceAllNE]

theorem replaceAllNE_cons (o : Char) (os new : List Char) (c : Char) (s : List Char) :
    replaceAllNE o os new (c :: s) =
      if (o :: os).isPrefixOf (c :: s) then
        new ++ replaceAllNE o os new ((c :: s).drop (os.length + 1))
      else
        c :: replaceAllNE o os new s := by
  rw [replaceAllNE]

/-- `str.replace` consumes a pattern occurrence sitting at the front. -/
theorem str_replace_append_front (o : Char) (os rest new : List Char) :
    str_replace ((o :: os) ++ rest) (o :: os) new
      = new ++ str_replace rest (o :: os) new := by
  show replaceAllNE o os new ((o :: os) ++ rest) = new ++ replaceAllNE o os new rest
  rw [List.cons_append, replaceAllNE_cons]
  rw [if_pos (by rw [← List.cons_append]; exact isPrefixOf_append ..)]
  congr 1
  have : (o :: (os ++ rest)).drop (os.length + 1) = (os ++ rest).drop os.length := rfl
  rw [this, List.drop_left]

theorem str_replace_self (o : Char) (os new : List Char) :
    str_replace (o :: os) (o :: os) new = new := by
  have h := str_replace_append_front o os [] new
  simpa [str_replace, replaceAllNE_nil] using h

theorem replaceAllNE_of_not_containsSub (o : Char) (os new : List Char) :
    ∀ s, containsSub (o :: os) s = false → replaceAllNE o os new s = s := by
  intro s
  induction s with
  | nil => intro _; exact replaceAllNE_nil ..
  | cons c s' ih =>
    intro h
    simp only [containsSub, Bool.or_eq_false_iff] at h
    rw [replaceAllNE_cons, if_neg (by simp [h.1]), ih h.2]

/-- When the pattern does not occur in `s`, `str.replace` is the identity. -/
theorem str_replace_of_not_containsSub {pat s : List Char} (new : List Char)
    (h : containsSub pat s = false) : str_replace s pat new = s := by
  cases pat with
  | nil => rfl
  | cons o os => exact replaceAllNE_of_not_containsSub o os new s h

/-- The replacement pattern `f'/gif "{query}"'` is the matcher's command
shape with a single space as whitespace. -/
theorem cmdText_eq_gifCmdText (q : List Char) : cmdText q = gifCmdText [' '] q := by
  simp [cmdText, gifCmdText]

theorem partsLoop_cons (cfg : Config) (p : Part) (ps : List Part) (cache : GifCache)
    (apis : List ApiResponse) (rands : List Nat) :
    partsLoop cfg (p :: ps) cache apis rands =
      if p.ptype = "text".toList then
        ((⟨p.ptype, (replaceLoop cfg (find_gif_commands p.ptext) p.ptext cache apis rands).text,
            p.extra⟩ ::
          (partsLoop cfg ps
            (replaceLoop cfg (find_gif_commands p.ptext) p.ptext cache apis rands).cache
            (replaceLoop cfg (find_gif_commands p.ptext) p.ptext cache apis rands).apis
            (replaceLoop cfg (find_gif_commands p.ptext) p.ptext cache apis rands).rands).1),
          (partsLoop cfg ps
            (replaceLoop cfg (find_gif_commands p.ptext) p.ptext cache apis rands).cache
            (replaceLoop cfg (find_gif_commands p.ptext) p.ptext cache apis rands).apis
            (replaceLoop cfg (find_gif_commands p.ptext) p.ptext cache apis rands).rands).2)
      else (p :: (partsLoop cfg ps cache apis rands).1, (partsLoop cfg ps cache apis rands).2) := by
  rw [partsLoop]

/-- The list-content loop preserves the number and order of parts, keeps
every part's `type` and remaining fields, returns non-text parts unchanged,
and rewrites each text part's `text` by the extract-resolve-replace loop
(run from some intermediate cache/oracle state). -/
theorem partsLoop_parts (cfg : Config) :
    ∀ (ps : List Part) (cache : GifCache) (apis : List ApiResponse) (rands : List Nat),
    (partsLoop cfg ps cache apis rands).1.length = ps.length ∧
    ∀ i, i < ps.length →
      ((partsLoop cfg ps cache apis rands).1.getD i ⟨[], [], []⟩).ptype
          = (ps.getD i ⟨[], [], []⟩).ptype ∧
      ((partsLoop cfg ps cache apis rands).1.getD i ⟨[], [], []⟩).extra
          = (ps.getD i ⟨[], [], []⟩).extra ∧
      ((ps.getD i ⟨[], [], []⟩).ptype ≠ "text".toList →
        (partsLoop cfg ps cache apis rands).1.getD i ⟨[], [], []⟩ = ps.getD i ⟨[], [], []⟩) ∧
      ((ps.getD i ⟨[], [], []⟩).ptype = "text".toList →
        ∃ c a r, ((partsLoop cfg ps cache apis rands).1.getD i ⟨[], [], []⟩).ptext
          = (replaceLoop cfg (find_gif_commands (ps.getD i ⟨[], [], []⟩).ptext)
              (ps.getD i ⟨[], [], []⟩).ptext c a r).text) := by
  intro ps
  induction ps with
  | nil => intro cache apis rands; simp [partsLoop]
  | cons p ps ih =>
    intro cache apis rands
    by_cases hp : p.ptype = "text".toList
    · rw [partsLoop_cons, if_pos hp]
      refine ⟨by simp [(ih ..).1], ?_⟩
      intro i hi
      cases i with
      | zero =>
        exact ⟨rfl, rfl, fun hne => absurd hp hne, fun _ => ⟨cache, apis, rands, rfl⟩⟩
      | succ j =>
        simp only [List.getD_cons_succ]
        exact (ih ..).2 j (by simpa using hi)
    · rw [partsLoop_cons, if_neg hp]
      refine ⟨by simp [(ih ..).1], ?_⟩
      intro i hi
      cases i with
      | zero =>
        exact ⟨rfl, rfl, fun _ => rfl, fun ht => absurd ht hp⟩
      | succ j =>
        simp only [List.getD_cons_succ]
        exact (ih ..).2 j (by simpa using hi)

/-! Claim theorems. -/

/-- C4: for every input string, extraction returns exactly the ordered
left-to-right list of query strings of non-overlapping `/gif`-command
occurrences (duplicates included, zero-length queries as the empty string):
the result is empty iff the string contains no well-formed command, a
well-formed command at the front contributes its query followed by the
extraction of the remainder after the match, and a position where no
command starts is skipped. -/
theorem find_gif_commands_spec (s : List Char) :
    (find_gif_commands s = [] ↔ ¬ containsGifCmd s)
    ∧ (∀ ws q rest, ws.all isPySpace = true → q.all (fun c => c ≠ '"') = true →
        find_gif_commands (gifCmdText ws q ++ rest) = q :: find_gif_commands rest)
    ∧ (∀ c s', s = c :: s' → ¬ startsWithGifCmd s →
        find_gif_commands s = find_gif_commands s') := by
  refine ⟨⟨fun h hc => find_ne_nil_of_contains hc h, fun h => ?_⟩,
    fun ws q rest hws hq => find_gif_commands_gifCmd ws q rest hws hq, ?_⟩
  · by_contra hne
    exact h (contains_of_find_ne_nil hne)
  · intro c s' hs hns
    subst hs
    cases hm : matchCmd (c :: s') with
    | some qr =>
      obtain ⟨q0, rest0⟩ := qr
      obtain ⟨ws, hdec, hws, hq⟩ := matchCmd_sound hm
      exact absurd ⟨ws, q0, rest0, hdec, hws, hq⟩ hns
    | none => exact find_gif_commands_cons_none hm

theorem find_gif_commands_spec_witness :
    find_gif_commands (gifCmdText [' '] ['a', 'l', 'p', 'h', 'a'] ++ ['!'])
      = ['a', 'l', 'p', 'h', 'a'] :: find_gif_commands ['!'] :=
  (find_gif_commands_spec []).2.1 [' '] ['a', 'l', 'p', 'h', 'a'] ['!'] (by decide) (by decide)

/-- C1: with sequential selection (and a configured API key), three
consecutive resolutions of a query cached as `[A, B, C]` return `A`, `B`,
`C` in order, and afterwards the cached list for that query is `[A, B, C]`
again: each resolution rotates the front element to the back. -/
theorem sequential_rotation_ring (cfg : Config) (cache : GifCache)
    (q A B C : List Char) (api1 api2 api3 : ApiResponse) (r1 r2 r3 : Nat)
    (hkey : cfg.valves.GIPHY_API_KEY ≠ [])
    (hseq : cfg.user_valves.RANDOM_GIF = false)
    (hc : cacheLookup cache q = some [A, B, C]) :
    (get_gif_url cfg cache q api1 r1).url = A ∧
    (get_gif_url cfg (get_gif_url cfg cache q api1 r1).cache q api2 r2).url = B ∧
    (get_gif_url cfg (get_gif_url cfg (get_gif_url cfg cache q api1 r1).cache q api2 r2).cache
        q api3 r3).url = C ∧
    cacheLookup (get_gif_url cfg (get_gif_url cfg (get_gif_url cfg cache q api1 r1).cache
        q api2 r2).cache q api3 r3).cache q = some [A, B, C] := by
  have h1 : get_gif_url cfg cache q api1 r1 = ⟨A, cacheSet cache q [B, C, A], false⟩ := by
    simp [get_gif_url, hkey, hc, selectGif, hseq]
  have hc2 : cacheLookup (cacheSet cache q [B, C, A]) q = some [B, C, A] :=
    cacheLookup_cacheSet_self ..
  have h2 : get_gif_url cfg (cacheSet cache q [B, C, A]) q api2 r2
      = ⟨B, cacheSet (cacheSet cache q [B, C, A]) q [C, A, B], false⟩ := by
    simp [get_gif_url, hkey, hc2, selectGif, hseq]
  have hc3 : cacheLookup (cacheSet (cacheSet cache q [B, C, A]) q [C, A, B]) q
      = some [C, A, B] := cacheLookup_cacheSet_self ..
  have h3 : get_gif_url cfg (cacheSet (cacheSet cache q [B, C, A]) q [C, A, B]) q api3 r3
      = ⟨C, cacheSet (cacheSet (cacheSet cache q [B, C, A]) q [C, A, B]) q [A, B, C], false⟩ := by
    simp [get_gif_url, hkey, hc3, selectGif, hseq]
  simp [h1, h2, h3, cacheLookup_cacheSet_self]

theorem sequential_rotation_ring_witness :
    (get_gif_url ⟨⟨['K'], false, 5, 10⟩, ⟨true, false⟩⟩ [(['q'], [['A'], ['B'], ['C']])]
        ['q'] (ApiResponse.failure []) 0).url = ['A'] ∧
    (get_gif_url ⟨⟨['K'], false, 5, 10⟩, ⟨true, false⟩⟩
        (get_gif_url ⟨⟨['K'], false, 5, 10⟩, ⟨true, false⟩⟩ [(['q'], [['A'], ['B'], ['C']])]
          ['q'] (ApiResponse.failure []) 0).cache ['q'] (ApiResponse.failure []) 0).url = ['B'] ∧
    (get_gif_url ⟨⟨['K'], false, 5, 10⟩, ⟨true, false⟩⟩
        (get_gif_url ⟨⟨['K'], false, 5, 10⟩, ⟨true, false⟩⟩
          (get_gif_url ⟨⟨['K'], false, 5, 10⟩, ⟨true, false⟩⟩ [(['q'], [['A'], ['B'], ['C']])]
            ['q'] (ApiResponse.failure []) 0).cache ['q'] (ApiResponse.failure []) 0).cache
        ['q'] (ApiResponse.failure []) 0).url = ['C'] ∧
    cacheLookup (get_gif_url ⟨⟨['K'], false, 5, 10⟩, ⟨true, false⟩⟩
        (get_gif_url ⟨⟨['K'], false, 5, 10⟩, ⟨true, false⟩⟩
          (get_gif_url ⟨⟨['K'], false, 5, 10⟩, ⟨true, false⟩⟩ [(['q'], [['A'], ['B'], ['C']])]
            ['q'] (ApiResponse.failure []) 0).cache ['q'] (ApiResponse.failure []) 0).cache
        ['q'] (ApiResponse.failure []) 0).cache ['q'] = some [['A'], ['B'], ['C']] :=
  sequential_rotation_ring ⟨⟨['K'], false, 5, 10⟩, ⟨true, false⟩⟩
    [(['q'], [['A'], ['B'], ['C']])] ['q'] ['A'] ['B'] ['C']
    (ApiResponse.failure []) (ApiResponse.failure []) (ApiResponse.failure [])
    0 0 0 (by decide) rfl (by decide)

/-- C5: with an empty API key, resolution returns the key-missing
placeholder (which embeds the query text), issues no network request, and
leaves the cache unchanged. -/
theorem missing_key_placeholder (cfg : Config) (cache : GifCache) (q : List Char)
    (api : ApiResponse) (r : Nat) (hkey : cfg.valves.GIPHY_API_KEY = []) :
    get_gif_url cfg cache q api r = ⟨keyMissingMsg q, cache, false⟩ ∧
    ∃ pre, keyMissingMsg q = pre ++ q := by
  exact ⟨by simp [get_gif_url, hkey], ⟨"Error: Giphy API key missing for query: ".toList, rfl⟩⟩

theorem missing_key_placeholder_witness :
    get_gif_url ⟨⟨[], false, 5, 10⟩, ⟨true, true⟩⟩ [] ['c', 'a', 't']
        (ApiResponse.failure []) 0
      = ⟨keyMissingMsg ['c', 'a', 't'], [], false⟩ ∧
    ∃ pre, keyMissingMsg ['c', 'a', 't'] = pre ++ ['c', 'a', 't'] :=
  missing_key_placeholder ⟨⟨[], false, 5, 10⟩, ⟨true, true⟩⟩ [] ['c', 'a', 't']
    (ApiResponse.failure []) 0 rfl

/-- C6: on a cache miss whose request raises, resolution returns the
search-error placeholder embedding the failure detail, leaves the cache
unchanged, and a subsequent resolution of the same query issues the network
request again (whatever it then returns). -/
theorem search_failure_not_cached (cfg : Config) (cache : GifCache) (q e : List Char)
    (r : Nat) (hkey : cfg.valves.GIPHY_API_KEY ≠ [])
    (hmiss : cacheLookup cache q = none) :
    get_gif_url cfg cache q (ApiResponse.failure e) r = ⟨searchErrMsg e, cache, true⟩ ∧
    (∃ pre, searchErrMsg e = pre ++ e) ∧
    ∀ api2 r2, (get_gif_url cfg cache q api2 r2).networkCalled = true := by
  refine ⟨by simp [get_gif_url, hkey, hmiss], ⟨"GIF search error: ".toList, rfl⟩, ?_⟩
  intro api2 r2
  cases api2 with
  | failure e2 => simp [get_gif_url, hkey, hmiss]
  | success entries =>
    cases entries with
    | nil => simp [get_gif_url, hkey, hmiss]
    | cons a as => simp [get_gif_url, hkey, hmiss, selectGif_networkCalled]

theorem search_failure_not_cached_witness :
    get_gif_url ⟨⟨['K'], false, 5, 10⟩, ⟨true, true⟩⟩ [] ['c']
        (ApiResponse.failure ['b', 'o', 'o', 'm']) 0
      = ⟨searchErrMsg ['b', 'o', 'o', 'm'], [], true⟩ ∧
    (∃ pre, searchErrMsg ['b', 'o', 'o', 'm'] = pre ++ ['b', 'o', 'o', 'm']) ∧
    ∀ api2 r2, (get_gif_url ⟨⟨['K'], false, 5, 10⟩, ⟨true, true⟩⟩ [] ['c']
        api2 r2).networkCalled = true :=
  search_failure_not_cached ⟨⟨['K'], false, 5, 10⟩, ⟨true, true⟩⟩ [] ['c']
    ['b', 'o', 'o', 'm'] 0 (by decide) rfl

/-- C7: resolving a query already present in the cache never issues the
network request, and only ever leaves the cache untouched or rotates the
entry's front element to the back; in every case the entry survives with
the same URLs (as a permutation), never replaced by fresh data. -/
theorem cached_query_never_refetched (cfg : Config) (cache : GifCache) (q : List Char)
    (gifs : List (List Char)) (api : ApiResponse) (r : Nat)
    (hc : cacheLookup cache q = some gifs) :
    (get_gif_url cfg cache q api r).networkCalled = false ∧
    ((get_gif_url cfg cache q api r).cache = cache ∨
      ∃ g gs, gifs = g :: gs ∧
        (get_gif_url cfg cache q api r).cache = cacheSet cache q (gs ++ [g])) ∧
    ∃ l, cacheLookup (get_gif_url cfg cache q api r).cache q = some l ∧ l.Perm gifs := by
  by_cases hkey : cfg.valves.GIPHY_API_KEY = []
  · refine ⟨by simp [get_gif_url, hkey], Or.inl (by simp [get_gif_url, hkey]), gifs, ?_, ?_⟩
    · simp [get_gif_url, hkey, hc]
    · exact List.Perm.refl gifs
  · cases gifs with
    | nil =>
      refine ⟨?_, Or.inl ?_, [], ?_, List.Perm.refl []⟩ <;>
        simp [get_gif_url, hkey, hc, selectGif]
    | cons g gs =>
      by_cases hr : cfg.user_valves.RANDOM_GIF
      · refine ⟨?_, Or.inl ?_, g :: gs, ?_, List.Perm.refl _⟩ <;>
          simp [get_gif_url, hkey, hc, selectGif, hr]
      · refine ⟨?_, Or.inr ⟨g, gs, rfl, ?_⟩, gs ++ [g], ?_, ?_⟩
        · simp [get_gif_url, hkey, hc, selectGif, hr]
        · simp [get_gif_url, hkey, hc, selectGif, hr]
        · simp [get_gif_url, hkey, hc, selectGif, hr, cacheLookup_cacheSet_self]
        · simpa using @List.perm_append_comm (List Char) gs [g]

theorem cached_query_never_refetched_witness :
    (get_gif_url ⟨⟨['K'], false, 5, 10⟩, ⟨true, false⟩⟩ [(['q'], [['A'], ['B']])] ['q']
        (ApiResponse.failure []) 0).networkCalled = false ∧
    ((get_gif_url ⟨⟨['K'], false, 5, 10⟩, ⟨true, false⟩⟩ [(['q'], [['A'], ['B']])] ['q']
        (ApiResponse.failure []) 0).cache = [(['q'], [['A'], ['B']])] ∨
      ∃ g gs, [['A'], ['B']] = g :: gs ∧
        (get_gif_url ⟨⟨['K'], false, 5, 10⟩, ⟨true, false⟩⟩ [(['q'], [['A'], ['B']])] ['q']
          (ApiResponse.failure []) 0).cache = cacheSet [(['q'], [['A'], ['B']])] ['q'] (gs ++ [g])) ∧
    ∃ l, cacheLookup (get_gif_url ⟨⟨['K'], false, 5, 10⟩, ⟨true, false⟩⟩
        [(['q'], [['A'], ['B']])] ['q'] (ApiResponse.failure []) 0).cache ['q'] = some l ∧
      l.Perm [['A'], ['B']] :=
  cached_query_never_refetched ⟨⟨['K'], false, 5, 10⟩, ⟨true, false⟩⟩
    [(['q'], [['A'], ['B']])] ['q'] [['A'], ['B']] (ApiResponse.failure []) 0 (by decide)

/-- C8: with random selection, resolving a query whose cache entry is
nonempty returns an element of that entry and leaves the whole cache
unchanged. -/
theorem random_selection_frame (cfg : Config) (cache : GifCache) (q : List Char)
    (gifs : List (List Char)) (api : ApiResponse) (r : Nat)
    (hkey : cfg.valves.GIPHY_API_KEY ≠ []) (hrand : cfg.user_valves.RANDOM_GIF = true)
    (hc : cacheLookup cache q = some gifs) (hne : gifs ≠ []) :
    (get_gif_url cfg cache q api r).cache = cache ∧
    (get_gif_url cfg cache q api r).url ∈ gifs := by
  cases gifs with
  | nil => exact absurd rfl hne
  | cons g gs =>
    constructor
    · simp [get_gif_url, hkey, hc, selectGif, hrand]
    · have hurl : (get_gif_url cfg cache q api r).url
          = (g :: gs).getD (r % (gs.length + 1)) g := by
        simp [get_gif_url, hkey, hc, selectGif, hrand]
      rw [hurl]
      exact getD_mem_of_mem _ _ _ (List.mem_cons_self g gs)

theorem random_selection_frame_witness :
    (get_gif_url ⟨⟨['K'], false, 5, 10⟩, ⟨true, true⟩⟩ [(['q'], [['A'], ['B'], ['C']])] ['q']
        (ApiResponse.failure []) 7).cache = [(['q'], [['A'], ['B'], ['C']])] ∧
    (get_gif_url ⟨⟨['K'], false, 5, 10⟩, ⟨true, true⟩⟩ [(['q'], [['A'], ['B'], ['C']])] ['q']
        (ApiResponse.failure []) 7).url ∈ [['A'], ['B'], ['C']] :=
  random_selection_frame ⟨⟨['K'], false, 5, 10⟩, ⟨true, true⟩⟩ [(['q'], [['A'], ['B'], ['C']])]
    ['q'] [['A'], ['B'], ['C']] (ApiResponse.failure []) 7 (by decide) rfl (by decide) (by decide)

/-- C10: on a cache miss whose response has a nonempty `data` array in which
no entry carries a usable fixed-width URL, the resolver stores the empty
list in the cache and returns the no-GIF placeholder; every subsequent
resolution of that query returns the no-GIF placeholder without issuing the
network request. -/
theorem unusable_results_cached_empty (cfg : Config) (cache : GifCache) (q : List Char)
    (entries : List (Option (List Char))) (r : Nat)
    (hkey : cfg.valves.GIPHY_API_KEY ≠ []) (hmiss : cacheLookup cache q = none)
    (hne : entries ≠ []) (hurls : fixedWidthUrls entries = []) :
    get_gif_url cfg cache q (ApiResponse.success entries) r
        = ⟨noGifMsg q, cacheSet cache q [], true⟩ ∧
    ∀ api2 r2, get_gif_url cfg (cacheSet cache q []) q api2 r2
        = ⟨noGifMsg q, cacheSet cache q [], false⟩ := by
  constructor
  · cases entries with
    | nil => exact absurd rfl hne
    | cons a as => simp [get_gif_url, hkey, hmiss, hurls, selectGif]
  · intro api2 r2
    simp [get_gif_url, hkey, cacheLookup_cacheSet_self, selectGif]

theorem unusable_results_cached_empty_witness :
    get_gif_url ⟨⟨['K'], false, 5, 10⟩, ⟨true, true⟩⟩ [] ['q']
        (ApiResponse.success [none, some []]) 0
      = ⟨noGifMsg ['q'], cacheSet [] ['q'] [], true⟩ ∧
    ∀ api2 r2, get_gif_url ⟨⟨['K'], false, 5, 10⟩, ⟨true, true⟩⟩ (cacheSet [] ['q'] []) ['q']
        api2 r2 = ⟨noGifMsg ['q'], cacheSet [] ['q'] [], false⟩ :=
  unusable_results_cached_empty ⟨⟨['K'], false, 5, 10⟩, ⟨true, true⟩⟩ [] ['q']
    [none, some []] 0 (by decide) rfl (by decide) (by decide)

/-- C9: on a list-content last message, the post-hook preserves the number
and order of parts, rewrites only the `text` field of parts whose `type` is
`"text"` (by the extract-resolve-replace loop), and returns every
non-text part unchanged, with `type` and remaining fields preserved for all
parts. -/
theorem list_content_frame (cfg : Config) (cache : GifCache) (ms : List Message)
    (ps : List Part) (apis : List ApiResponse) (rands : List Nat)
    (hen : cfg.user_valves.ENABLE_GIF_REPLACE = true) :
    ∃ ps', (outlet cfg cache ⟨ms ++ [⟨Content.parts ps⟩]⟩ apis rands).body
        = ⟨ms ++ [⟨Content.parts ps'⟩]⟩ ∧
      ps'.length = ps.length ∧
      ∀ i, i < ps.length →
        (ps'.getD i ⟨[], [], []⟩).ptype = (ps.getD i ⟨[], [], []⟩).ptype ∧
        (ps'.getD i ⟨[], [], []⟩).extra = (ps.getD i ⟨[], [], []⟩).extra ∧
        ((ps.getD i ⟨[], [], []⟩).ptype ≠ "text".toList →
          ps'.getD i ⟨[], [], []⟩ = ps.getD i ⟨[], [], []⟩) ∧
        ((ps.getD i ⟨[], [], []⟩).ptype = "text".toList →
          ∃ c a r, (ps'.getD i ⟨[], [], []⟩).ptext
            = (replaceLoop cfg (find_gif_commands (ps.getD i ⟨[], [], []⟩).ptext)
                (ps.getD i ⟨[], [], []⟩).ptext c a r).text) := by
  refine ⟨(partsLoop cfg ps cache apis rands).1, ?_,
    (partsLoop_parts cfg ps cache apis rands).1, (partsLoop_parts cfg ps cache apis rands).2⟩
  simp [outlet, hen, List.getLast?_concat, List.dropLast_concat]

theorem list_content_frame_witness :
    ∃ ps', (outlet ⟨⟨['K'], false, 5, 10⟩, ⟨true, true⟩⟩ []
        ⟨[⟨Content.parts [⟨"text".toList, "hello".toList, []⟩,
            ⟨"image_url".toList, [], [(['u'], ['v'])]⟩]⟩]⟩ [] []).body
        = ⟨[⟨Content.parts ps'⟩]⟩ ∧
      ps'.length = 2 ∧
      ∀ i, i < ([⟨"text".toList, "hello".toList, []⟩,
          ⟨"image_url".toList, [], [(['u'], ['v'])]⟩] : List Part).length →
        (ps'.getD i ⟨[], [], []⟩).ptype
            = (([⟨"text".toList, "hello".toList, []⟩,
                ⟨"image_url".toList, [], [(['u'], ['v'])]⟩] : List Part).getD i
                  ⟨[], [], []⟩).ptype ∧
        (ps'.getD i ⟨[], [], []⟩).extra
            = (([⟨"text".toList, "hello".toList, []⟩,
                ⟨"image_url".toList, [], [(['u'], ['v'])]⟩] : List Part).getD i
                  ⟨[], [], []⟩).extra ∧
        ((([⟨"text".toList, "hello".toList, []⟩,
            ⟨"image_url".toList, [], [(['u'], ['v'])]⟩] : List Part).getD i
              ⟨[], [], []⟩).ptype ≠ "text".toList →
          ps'.getD i ⟨[], [], []⟩
            = ([⟨"text".toList, "hello".toList, []⟩,
                ⟨"image_url".toList, [], [(['u'], ['v'])]⟩] : List Part).getD i ⟨[], [], []⟩) ∧
        ((([⟨"text".toList, "hello".toList, []⟩,
            ⟨"image_url".toList, [], [(['u'], ['v'])]⟩] : List Part).getD i
              ⟨[], [], []⟩).ptype = "text".toList →
          ∃ c a r, (ps'.getD i ⟨[], [], []⟩).ptext
            = (replaceLoop ⟨⟨['K'], false, 5, 10⟩, ⟨true, true⟩⟩
                (find_gif_commands (([⟨"text".toList, "hello".toList, []⟩,
                    ⟨"image_url".toList, [], [(['u'], ['v'])]⟩] : List Part).getD i
                      ⟨[], [], []⟩).ptext)
                (([⟨"text".toList, "hello".toList, []⟩,
                    ⟨"image_url".toList, [], [(['u'], ['v'])]⟩] : List Part).getD i
                      ⟨[], [], []⟩).ptext c a r).text) :=
  list_content_frame ⟨⟨['K'], false, 5, 10⟩, ⟨true, true⟩⟩ [] []
    [⟨"text".toList, "hello".toList, []⟩, ⟨"image_url".toList, [], [(['u'], ['v'])]⟩]
    [] [] rfl

/-- C2 counterexample: string content `/gif "a"/gif "a"` with sequential
rotation and cache entry `a ↦ [u1, u2, u3]`.  The post-hook replaces BOTH
occurrences with the first resolved URL `u1`; replacing each occurrence
independently would have produced `u1` then `u2`, a different text. -/
theorem duplicate_commands_counterexample :
    (outlet ⟨⟨['K'], false, 5, 10⟩, ⟨true, false⟩⟩
        [(['a'], [['u', '1'], ['u', '2'], ['u', '3']])]
        ⟨[⟨Content.str ("/gif \"a\"/gif \"a\"".toList)⟩]⟩ [] []).body
      = ⟨[⟨Content.str ("![GIF](u1)![GIF](u1)".toList)⟩]⟩ ∧
    ("![GIF](u1)![GIF](u1)".toList : List Char) ≠ "![GIF](u1)![GIF](u2)".toList := by
  constructor
  · simp [outlet, replaceLoop, get_gif_url, selectGif, cacheLookup, cacheSet, cmdText, gifMarkup,
      str_replace, replaceAllNE_cons, replaceAllNE_nil, find_gif_commands_cons,
      find_gif_commands_nil, matchCmd, isPySpace, keyMissingMsg, noGifMsg, searchErrMsg,
      List.isPrefixOf, List.dropWhile, List.takeWhile]
  · decide

/-- C2 amended: with sequential rotation, each extracted occurrence of the
same query still triggers its own resolver call (rotating the cache once per
occurrence), but `str.replace` substitutes every occurrence of the command
substring at once, so all occurrences of the same command display the URL of
the first resolution; the second resolution's URL is discarded because the
command substring no longer occurs in the text. -/
theorem duplicate_commands_amended (cfg : Config) (cache : GifCache) (ms : List Message)
    (content q u1 u2 : List Char) (rest : List (List Char))
    (apis : List ApiResponse) (rands : List Nat)
    (hen : cfg.user_valves.ENABLE_GIF_REPLACE = true)
    (hseq : cfg.user_valves.RANDOM_GIF = false)
    (hkey : cfg.valves.GIPHY_API_KEY ≠ [])
    (hfind : find_gif_commands content = [q, q])
    (hc : cacheLookup cache q = some (u1 :: u2 :: rest))
    (hno : containsSub (cmdText q) (str_replace content (cmdText q) (gifMarkup u1)) = false) :
    outlet cfg cache ⟨ms ++ [⟨Content.str content⟩]⟩ apis rands
      = ⟨⟨ms ++ [⟨Content.str (str_replace content (cmdText q) (gifMarkup u1))⟩]⟩,
         cacheSet (cacheSet cache q (u2 :: (rest ++ [u1]))) q ((rest ++ [u1]) ++ [u2])⟩ := by
  have h1 : get_gif_url cfg cache q (apis.headD (ApiResponse.failure [])) (rands.headD 0)
      = ⟨u1, cacheSet cache q (u2 :: (rest ++ [u1])), false⟩ := by
    simp [get_gif_url, hkey, hc, selectGif, hseq]
  have hc2 : cacheLookup (cacheSet cache q (u2 :: (rest ++ [u1]))) q
      = some (u2 :: (rest ++ [u1])) := cacheLookup_cacheSet_self ..
  have h2 : get_gif_url cfg (cacheSet cache q (u2 :: (rest ++ [u1]))) q
        (apis.tail.headD (ApiResponse.failure [])) (rands.tail.headD 0)
      = ⟨u2, cacheSet (cacheSet cache q (u2 :: (rest ++ [u1]))) q ((rest ++ [u1]) ++ [u2]),
          false⟩ := by
    simp [get_gif_url, hkey, hc2, selectGif, hseq]
  have hloop : replaceLoop cfg [q, q] content cache apis rands
      = ⟨str_replace content (cmdText q) (gifMarkup u1),
         cacheSet (cacheSet cache q (u2 :: (rest ++ [u1]))) q ((rest ++ [u1]) ++ [u2]),
         apis.tail.tail, rands.tail.tail⟩ := by
    simp only [replaceLoop, h1, h2]
    rw [str_replace_of_not_containsSub (gifMarkup u2) hno]
  simp [outlet, hen, List.getLast?_concat, List.dropLast_concat, hfind, hloop]

theorem duplicate_commands_amended_witness :
    outlet ⟨⟨['K'], false, 5, 10⟩, ⟨true, false⟩⟩ [(['a'], [['u', '1'], ['u', '2']])]
        ⟨[⟨Content.str ("/gif \"a\"/gif \"a\"".toList)⟩]⟩ [] []
      = ⟨⟨[⟨Content.str (str_replace ("/gif \"a\"/gif \"a\"".toList) (cmdText ['a'])
            (gifMarkup ['u', '1']))⟩]⟩,
         cacheSet (cacheSet [(['a'], [['u', '1'], ['u', '2']])] ['a']
             (['u', '2'] :: ([] ++ [['u', '1']])))
           ['a'] (([] ++ [['u', '1']]) ++ [['u', '2']])⟩ :=
  duplicate_commands_amended ⟨⟨['K'], false, 5, 10⟩, ⟨true, false⟩⟩
    [(['a'], [['u', '1'], ['u', '2']])] [] ("/gif \"a\"/gif \"a\"".toList) ['a']
    ['u', '1'] ['u', '2'] [] [] [] rfl rfl (by decide) (by
      simp [find_gif_commands_cons, find_gif_commands_nil, matchCmd, isPySpace,
        List.dropWhile, List.takeWhile]) (by decide) (by
      simp [str_replace, replaceAllNE_cons, replaceAllNE_nil, containsSub, cmdText, gifMarkup,
        List.isPrefixOf, List.dropWhile, List.takeWhile])

/-- C3 counterexample: `/gif"a"` (no whitespace before the quote) is matched
and extracted by the scanner, but the post-hook rebuilds the replacement
pattern with exactly one space, finds no occurrence, and returns the text
unchanged instead of substituting `![GIF](u)`. -/
theorem whitespace_replacement_counterexample :
    find_gif_commands ("/gif\"a\"".toList) = [['a']] ∧
    (outlet ⟨⟨['K'], false, 5, 10⟩, ⟨true, true⟩⟩ [(['a'], [['u']])]
        ⟨[⟨Content.str ("/gif\"a\"".toList)⟩]⟩ [] []).body
      = ⟨[⟨Content.str ("/gif\"a\"".toList)⟩]⟩ ∧
    ("/gif\"a\"".toList : List Char) ≠ gifMarkup ['u'] := by
  refine ⟨?_, ?_, by decide⟩
  · simp [find_gif_commands_cons, find_gif_commands_nil, matchCmd, isPySpace,
      List.dropWhile, List.takeWhile]
  · simp [outlet, replaceLoop, get_gif_url, selectGif, cacheLookup, cacheSet, cmdText, gifMarkup,
      str_replace, replaceAllNE_cons, replaceAllNE_nil, find_gif_commands_cons,
      find_gif_commands_nil, matchCmd, isPySpace, List.isPrefixOf, List.dropWhile,
      List.takeWhile]

/-- C3 amended: only occurrences written with exactly one space between
`/gif` and the opening quote are replaced by inline image markup
`![GIF](url)`; occurrences matched with other whitespace are extracted and
resolved but left unreplaced, because the replacement pattern is rebuilt as
`/gif "query"` with a single space.  Here the canonical single-space form is
proved to be replaced. -/
theorem single_space_command_replaced (cfg : Config) (cache : GifCache) (ms : List Message)
    (q u : List Char) (apis : List ApiResponse) (rands : List Nat)
    (hen : cfg.user_valves.ENABLE_GIF_REPLACE = true)
    (hrand : cfg.user_valves.RANDOM_GIF = true)
    (hkey : cfg.valves.GIPHY_API_KEY ≠ [])
    (hq : q.all (fun c => c ≠ '"') = true)
    (hc : cacheLookup cache q = some [u]) :
    outlet cfg cache ⟨ms ++ [⟨Content.str (cmdText q)⟩]⟩ apis rands
      = ⟨⟨ms ++ [⟨Content.str (gifMarkup u)⟩]⟩, cache⟩ := by
  have hfind : find_gif_commands (cmdText q) = [q] := by
    rw [cmdText_eq_gifCmdText]
    have h0 := find_gif_commands_gifCmd [' '] q [] (by decide) hq
    simpa [find_gif_commands_nil] using h0
  have hurl : get_gif_url cfg cache q (apis.headD (ApiResponse.failure [])) (rands.headD 0)
      = ⟨u, cache, false⟩ := by
    simp [get_gif_url, hkey, hc, selectGif, hrand, Nat.mod_one]
  have hrepl : str_replace (cmdText q) (cmdText q) (gifMarkup u) = gifMarkup u :=
    str_replace_self '/' ('g' :: 'i' :: 'f' :: ' ' :: '"' :: (q ++ ['"'])) (gifMarkup u)
  have hloop : replaceLoop cfg [q] (cmdText q) cache apis rands
      = ⟨gifMarkup u, cache, apis.tail, rands.tail⟩ := by
    simp only [replaceLoop, hurl, hrepl]
  simp [outlet, hen, List.getLast?_concat, List.dropLast_concat, hfind, hloop]

theorem single_space_command_replaced_witness :
    outlet ⟨⟨['K'], false, 5, 10⟩, ⟨true, true⟩⟩ [(['a'], [['u']])]
        ⟨[⟨Content.str (cmdText ['a'])⟩]⟩ [] []
      = ⟨⟨[⟨Content.str (gifMarkup ['u'])⟩]⟩, [(['a'], [['u']])]⟩ :=
  single_space_command_replaced ⟨⟨['K'], false, 5, 10⟩, ⟨true, true⟩⟩ [(['a'], [['u']])]
    [] ['a'] ['u'] [] [] rfl rfl (by decide) (by decide) (by decide)

end GifReplacer
